import Mathlib

/-!
Verification of the `vscode-bisect` bisection engine and build lifecycle
manager against its natural-language specification.

The definitions below are a shallow embedding of the TypeScript source:

* `nextState`, `finishBisect`, `bisectLoop`, `startBisect` embed the
  `Bisecter` class of `src/bisect.ts` (the revision with the
  `IBisectState` record, the `length < 2` short circuit and the `Quit`
  response).
* `indexOfCommit`, `fetchBuildsPure`, `runSession` embed
  `Builds.fetchBuilds` (catalog fetch, bound resolution, validation,
  inclusive slice) and the surrounding session control flow.
* `installBuild` and friends embed `Builds.installBuild` together with
  the archive-name/path helpers it uses.
* `stopWebServer`, `stopElectron`, `stopNoop` and `processPerfFile`
  embed the `stop` implementations and the performance-file parsing of
  `Launcher`.

Machine numbers: the JavaScript values reachable here are small
nonnegative integers (chunk sizes, list indices) or array indices that
may drift below zero, so chunks are modelled as `Nat` and indices as
`Int`.  `Math.round(c / 2)` on a nonnegative integer `c` is
`(c + 1) / 2` in integer arithmetic (JavaScript rounds halves up).
-/

set_option autoImplicit false

namespace VSCodeBisect

/-- Runtimes of a build (`Runtime` enum in `constants.ts`):
local web server, remote web endpoint, or local desktop application. -/
inductive Runtime where
  | webLocal
  | webRemote
  | desktopLocal
deriving DecidableEq, Repr

/-- A build (`IBuild` in `builds.ts`): a runtime plus a commit hash. -/
structure Build where
  runtime : Runtime
  commit : String
deriving DecidableEq, Repr

/-- The judge's verdict for a launched build (`BisectResponse` in
`bisect.ts`; `Retry` is resolved inside `tryBuild` and never reaches the
search loop, so it does not appear here). -/
inductive Verdict where
  | good
  | bad
  | quit
deriving DecidableEq, Repr

/-- The binary-search state (`IBisectState` in `bisect.ts`). The index is
an `Int` because the step function can push it below `0` or beyond the
end of the range; JavaScript array indexing then yields `undefined`. -/
structure BisectState where
  currentChunk : Nat
  currentIndex : Int
deriving DecidableEq, Repr

/-- `Math.round(c / 2)` for a nonnegative integer `c`: JavaScript rounds
halves toward positive infinity, so the result is `(c + 1) / 2`. -/
def roundHalf (c : Nat) : Nat :=
  (c + 1) / 2

/-- `Bisecter.nextState`.  Returns `true` (search finished) when the
chunk is already `1`, leaving the state untouched; otherwise halves the
chunk with rounding and moves the index: `Good` subtracts the new chunk
(try newer, toward index 0), anything else adds it (try older, toward
the end). -/
def nextState (s : BisectState) (v : Verdict) : Bool × BisectState :=
  if s.currentChunk = 1 then
    (true, s)
  else
    let c := roundHalf s.currentChunk
    (false,
      { currentChunk := c
        currentIndex := if v = .good then s.currentIndex - c else s.currentIndex + c })

/-- Recording of a verdict inside the search loop of `Bisecter.start`:
`Bad` overwrites the worst-known-bad candidate, `Good` the
best-known-good candidate. -/
def recordVerdict (b : Build) (v : Verdict) (bad good : Option Build) :
    Option Build × Option Build :=
  ((if v = .bad then some b else bad), (if v = .good then some b else good))

/-- JavaScript array indexing `buildsRange[i]` for an `Int` index:
`undefined` (here `none`) for negative indices and for indices at or
past the end. -/
def getBuild? (range : List Build) (i : Int) : Option Build :=
  if i < 0 then none else range.get? i.toNat

/-- The final report printed by `Bisecter.finishBisect`. -/
inductive Report where
  | pair (bad good : Build)
  | allBad (bad : Build)
  | allGood (good : Build)
  | insufficient
deriving DecidableEq, Repr

/-- `Bisecter.finishBisect`: both candidates recorded gives the
first-bad-commit pair, only a bad one gives "All builds are bad!", only
a good one gives "All builds are good!", neither gives the
"No builds bisected" (insufficient builds) message. -/
def finishBisect (badBuild goodBuild : Option Build) : Report :=
  match badBuild, goodBuild with
  | some b, some g => .pair b g
  | some b, none => .allBad b
  | none, some g => .allGood g
  | none, none => .insufficient

/-- How the `while` loop of `Bisecter.start` was exited. -/
inductive ExitKind where
  | outOfRange
  | finished
  | quit
deriving DecidableEq, Repr

/-- Result of the search loop of `Bisecter.start`: the recorded
candidates, the exit kind, the state at exit, the states at which the
loop condition was evaluated (in order), the builds launched (in order)
and how many launches happened. -/
structure LoopResult where
  badBuild : Option Build
  goodBuild : Option Build
  exit : ExitKind
  finalState : BisectState
  trace : List BisectState
  launched : List Build
  launches : Nat
deriving DecidableEq, Repr

/-- The `while (build = buildsRange[state.currentIndex])` loop of
`Bisecter.start`.  The judge is an arbitrary function of the step number
and the index under test (the human answers after seeing
`buildsRange[currentIndex]`).  Fuel bounds the number of iterations so
the embedding is total; `none` means the fuel ran out. -/
def bisectLoop (range : List Build) (judge : Nat → Int → Verdict) :
    Nat → Nat → BisectState → Option Build → Option Build → List Build → Nat →
    Option LoopResult
  | 0, _, _, _, _, _, _ => none
  | fuel + 1, step, s, bad, good, launched, launches =>
    match getBuild? range s.currentIndex with
    | none => some ⟨bad, good, .outOfRange, s, [s], launched, launches⟩
    | some b =>
      match judge step s.currentIndex with
      | .quit => some ⟨bad, good, .quit, s, [s], launched ++ [b], launches + 1⟩
      | v =>
        let r := recordVerdict b v bad good
        match nextState s v with
        | (true, _) =>
          some ⟨r.1, r.2, .finished, s, [s], launched ++ [b], launches + 1⟩
        | (false, s') =>
          match bisectLoop range judge fuel (step + 1) s' r.1 r.2
              (launched ++ [b]) (launches + 1) with
          | none => none
          | some res => some { res with trace := s :: res.trace }

/-- Result of `Bisecter.start`: the report (`none` when the judge quit,
since no report is printed then), the launches, the loop trace and the
exit kind (`none` when the short circuit fired before the loop). -/
structure RunResult where
  report : Option Report
  launches : Nat
  launched : List Build
  trace : List BisectState
  exit : Option ExitKind
deriving DecidableEq, Repr

/-- `Bisecter.start` after the builds range has been fetched: ranges of
length below 2 short-circuit to `finishBisect` with no candidates and no
launches; otherwise the state starts as `(length, 0)`, one synthetic
`Bad` step moves it to the middle, and the loop runs. -/
def startBisect (fuel : Nat) (range : List Build) (judge : Nat → Int → Verdict) :
    Option RunResult :=
  if range.length < 2 then
    some ⟨some (finishBisect none none), 0, [], [], none⟩
  else
    let s0 := (nextState ⟨range.length, 0⟩ .bad).2
    match bisectLoop range judge fuel 0 s0 none none [] 0 with
    | none => none
    | some r =>
      some ⟨if r.exit = .quit then none else some (finishBisect r.badBuild r.goodBuild),
        r.launches, r.launched, r.trace, some r.exit⟩

/-- `Bisecter.indexOf` / `Builds.indexOf`: index of the first build whose
commit matches, scanning from the front (newest first). -/
def indexOfCommit (commit : String) : List Build → Option Nat
  | [] => none
  | b :: bs =>
    if b.commit = commit then some 0 else (indexOfCommit commit bs).map (· + 1)

/-- JavaScript string interpolation of an optional value: `undefined`
prints as the string "undefined". -/
def optStr (o : Option String) : String :=
  o.getD "undefined"

/-- `Array.prototype.slice(start, stop)` for the nonnegative arguments
used by `fetchBuilds` (`0 ≤ start`): the elements from `start` up to but
excluding `stop`. -/
def jsSlice (l : List Build) (start stop : Int) : List Build :=
  (l.drop start.toNat).take (stop - start).toNat

/-- Resolution of `goodCommitIndex` in `Builds.fetchBuilds`: the oldest
entry (`length - 1`) by default; a supplied commit is looked up in the
catalog and its absence is a hard error naming the commit. -/
def lookupGoodIndex (allBuilds : List Build) (goodCommit : Option String) :
    Except String Int :=
  match goodCommit with
  | none => .ok ((allBuilds.length : Int) - 1)
  | some g =>
    match indexOfCommit g allBuilds with
    | none => .error ("Provided good commit " ++ g ++ " is not a released insiders build.")
    | some i => .ok i

/-- Resolution of `badCommitIndex` in `Builds.fetchBuilds`: the newest
entry (`0`) by default; a supplied commit is looked up in the catalog
and its absence is a hard error naming the commit. -/
def lookupBadIndex (allBuilds : List Build) (badCommit : Option String) :
    Except String Int :=
  match badCommit with
  | none => .ok 0
  | some b =>
    match indexOfCommit b allBuilds with
    | none => .error ("Provided bad commit " ++ b ++ " is not a released insiders build.")
    | some i => .ok i

/-- `Builds.fetchBuilds` after the catalog has been fetched: resolve the
supplied good/bad bounds against the newest-first catalog, reject
`badCommitIndex >= goodCommitIndex` with an error naming both supplied
commits, and return the inclusive slice between the bounds. -/
def fetchBuildsPure (allBuilds : List Build) (goodCommit badCommit : Option String) :
    Except String (List Build) :=
  match lookupGoodIndex allBuilds goodCommit with
  | .error m => .error m
  | .ok goodCommitIndex =>
    match lookupBadIndex allBuilds badCommit with
    | .error m => .error m
    | .ok badCommitIndex =>
      if goodCommitIndex ≤ badCommitIndex then
        .error ("Provided bad commit " ++ optStr badCommit ++
          " cannot be older or same as good commit " ++ optStr goodCommit ++ ".")
      else
        .ok (jsSlice allBuilds badCommitIndex (goodCommitIndex + 1))

/-- `Builds.fetchAllBuilds`: the commit list returned by the update
endpoint, tagged with the runtime. -/
def catalogBuilds (rt : Runtime) (catalog : List String) : List Build :=
  catalog.map (fun commit => ⟨rt, commit⟩)

/-- Externally observable side effects of a bisect session, in order:
the catalog fetch (network), archive downloads (network) and build
launches (process activity). -/
inductive SessionEffect where
  | fetchCatalog
  | download (commit : String)
  | launch (commit : String)
deriving DecidableEq, Repr

/-- Whether a session effect touches the network. -/
def SessionEffect.isNetwork : SessionEffect → Bool
  | .fetchCatalog => true
  | .download _ => true
  | .launch _ => false

/-- Outcome of a whole `Bisecter.start` session: the effects in order
and either the thrown error or the run result. -/
structure SessionResult where
  effects : List SessionEffect
  outcome : Except String RunResult
deriving Repr

/-- A whole session of `Bisecter.start`: `Builds.fetchBuilds` first
fetches the catalog over the network, then validates the bounds (a
validation error propagates and aborts the session); on success the
search loop runs and each `tryBuild` launches one build.  `none` means
the loop fuel ran out. -/
def runSession (fuel : Nat) (rt : Runtime) (catalog : List String)
    (goodCommit badCommit : Option String) (judge : Nat → Int → Verdict) :
    Option SessionResult :=
  match fetchBuildsPure (catalogBuilds rt catalog) goodCommit badCommit with
  | .error m => some ⟨[.fetchCatalog], .error m⟩
  | .ok range =>
    match startBisect fuel range judge with
    | none => none
    | some r =>
      some ⟨.fetchCatalog :: r.launched.map (fun b => .launch b.commit), .ok r⟩

/-- Operating-system/architecture targets (`Platform` enum in
`constants.ts`). -/
inductive Platform where
  | macOSX64
  | macOSArm
  | linuxX64
  | linuxArm
  | windowsX64
  | windowsArm
deriving DecidableEq, Repr

/-- The two-valued runtime enum (`Runtime` in the `constants.ts`
revision that `Builds.installBuild` compiles against): web server or
desktop application. -/
inductive InstallRuntime where
  | web
  | desktop
deriving DecidableEq, Repr

/-- Build metadata from the versions endpoint (`IBuildMetadata`):
download URL and product version. -/
structure BuildMeta where
  url : String
  productVersion : String
deriving DecidableEq, Repr

/-- `url.split('/').pop()`: the last segment of a URL (empty for an
empty split, where the source would throw on `undefined`). -/
def lastUrlSegment (url : String) : String :=
  ((url.splitOn "/").getLast?).getD ""

/-- `Builds.getBuildArchiveName`: the archive file name per
runtime/platform; Linux and Windows desktop names come from the build
metadata. -/
def getBuildArchiveName (rt : InstallRuntime) (p : Platform) (meta : BuildMeta) : String :=
  match rt, p with
  | .web, .macOSX64 | .web, .macOSArm => "vscode-server-darwin-web.zip"
  | .web, .linuxX64 | .web, .linuxArm => "vscode-server-linux-x64-web.tar.gz"
  | .web, .windowsX64 | .web, .windowsArm => "vscode-server-win32-x64-web.zip"
  | .desktop, .macOSX64 => "VSCode-darwin.zip"
  | .desktop, .macOSArm => "VSCode-darwin-arm64.zip"
  | .desktop, .linuxX64 | .desktop, .linuxArm => lastUrlSegment meta.url
  | .desktop, .windowsX64 => "VSCode-win32-x64-" ++ meta.productVersion ++ ".zip"
  | .desktop, .windowsArm => "VSCode-win32-arm64-" ++ meta.productVersion ++ ".zip"

/-- The builds cache folder (`BUILD_FOLDER` in `constants.ts`; the
absolute prefix is irrelevant to the claims). -/
def BUILD_FOLDER : String :=
  ".builds"

/-- `path.join` for the two-segment joins used here. -/
def joinPath (a b : String) : String :=
  a ++ "/" ++ b

/-- `getBuildPath` (`files.ts`): the per-commit cache folder; Windows
shortens the commit to 6 characters to respect path length limits. -/
def getBuildPath (p : Platform) (commit : String) : String :=
  if p = .windowsX64 ∨ p = .windowsArm then
    joinPath BUILD_FOLDER (commit.take 6)
  else
    joinPath BUILD_FOLDER commit

/-- `path.dirname` for the slash-separated paths built here. -/
def dirname (path : String) : String :=
  String.intercalate "/" ((path.splitOn "/").dropLast)

/-- `path.substring(0, path.lastIndexOf('.zip'))`: everything before the
last occurrence of `.zip` (the empty string when there is none, as in
JavaScript where `substring(0, -1)` is empty). -/
def stripToLastZip (path : String) : String :=
  String.intercalate ".zip" ((path.splitOn ".zip").dropLast)

/-- Side effects of `Builds.installBuild`. -/
inductive InstallEffect where
  | download (url path : String)
  | unzip (path destination : String)
deriving DecidableEq, Repr

/-- Result of `Builds.installBuild`: the file system afterwards (the set
of existing paths) and the effects performed. -/
structure InstallResult where
  fs : List String
  effects : List InstallEffect
deriving DecidableEq, Repr

/-- `Builds.installBuild`: compute the archive path; if it already
exists the build is assumed cached and nothing happens; otherwise the
archive is downloaded to that path and unzipped (Windows desktop
archives lack a top-level folder, so they extract next to the archive
with the `.zip` suffix stripped; everything else extracts into the
archive's folder). -/
def installBuild (rt : InstallRuntime) (p : Platform) (meta : BuildMeta)
    (fs : List String) (commit : String) : InstallResult :=
  let buildName := getBuildArchiveName rt p meta
  let path := joinPath (getBuildPath p commit) buildName
  if path ∈ fs then
    ⟨fs, []⟩
  else
    let url := "https://az764295.vo.msecnd.net/insider/" ++ commit ++ "/" ++ buildName
    let destination :=
      if (rt = .desktop ∧ p = .windowsX64) ∨ p = .windowsArm then
        stripToLastZip path
      else
        dirname path
    ⟨path :: fs, [.download url path, .unzip path destination]⟩

/-- Liveness of a launched operating-system process. -/
inductive ProcState where
  | alive
  | exited
deriving DecidableEq, Repr

/-- The `stop` closure of `Launcher.launchLocalWebServer`: run
`tree-kill` on the process id; if it reports an error, probe the process
with signal `0` — when the probe throws the process is gone and the stop
resolves, otherwise the stop rejects with the kill error.  The tree-kill
call is modelled as a function from the process state to the pair
(reported an error?, process state afterwards). -/
def stopWebServer (treeKill : ProcState → Bool × ProcState) (st : ProcState) :
    Except Unit Unit × ProcState :=
  let r := treeKill st
  if r.1 then
    if r.2 = .alive then (.error (), r.2) else (.ok (), r.2)
  else
    (.ok (), r.2)

/-- The `stop` closure of `Launcher.launchElectron`: `cp.kill()` sends a
terminate signal and the promise always resolves. -/
def stopElectron (killSignal : ProcState → ProcState) (st : ProcState) :
    Except Unit Unit × ProcState :=
  (.ok (), killSignal st)

/-- `NOOP_INSTANCE.stop` (used for web-remote launches): nothing to
release. -/
def stopNoop (st : ProcState) : Except Unit Unit × ProcState :=
  (.ok (), st)

/-- The regular expression match of `/^(\d+)/.exec(contents)`: the
maximal leading run of decimal digits, or `none` when the first
character is not a digit. -/
def execLeadingDigits (s : String) : Option String :=
  match s.data.takeWhile Char.isDigit with
  | [] => none
  | ds => some (String.mk ds)

/-- `parseInt` on a nonempty string of decimal digits. -/
def parseIntDigits (s : String) : Nat :=
  s.data.foldl (fun n c => n * 10 + (c.toNat - 48)) 0

/-- Performance-file processing in `Launcher.launchElectron` after the
process self-terminated: `readFileSync` throws when the file is absent
(`none`); otherwise `ellapsed` is the parsed leading integer of the
contents, staying `undefined` when the match fails. -/
def processPerfFile (contents : Option String) : Except Unit (Option Nat) :=
  match contents with
  | none => .error ()
  | some s =>
    match execLeadingDigits s with
    | some d => .ok (some (parseIntDigits d))
    | none => .ok none

/-! Concrete fixtures used by the theorems below. -/

/-- A local web build for a given commit. -/
def cBuild (commit : String) : Build :=
  ⟨.webLocal, commit⟩

/-- The six-build range `[C5, C4, C3, C2, C1, C0]`, newest first. -/
def range6 : List Build :=
  [cBuild "C5", cBuild "C4", cBuild "C3", cBuild "C2", cBuild "C1", cBuild "C0"]

/-- A two-build range, newest first. -/
def rangeTwo : List Build :=
  [cBuild "B0", cBuild "B1"]

/-- A five-build range, newest first. -/
def rangeFive : List Build :=
  [cBuild "b0", cBuild "b1", cBuild "b2", cBuild "b3", cBuild "b4"]

/-- A single-build range. -/
def soloRange : List Build :=
  [cBuild "S0"]

/-- First halving-step fact shared by the step and invariant theorems:
rounding makes the half strictly smaller once the chunk is at least 2. -/
theorem roundHalf_lt {c : Nat} (h : 2 ≤ c) : roundHalf c < c := by
  unfold roundHalf
  omega

/-- Second halving-step fact: the rounded half of a positive chunk stays
positive, so the chunk can never skip past 1 to 0. -/
theorem roundHalf_pos {c : Nat} (h : 1 ≤ c) : 1 ≤ roundHalf c := by
  unfold roundHalf
  omega

/-- C2: on the range `[C5, C4, C3, C2, C1, C0]` (newest to oldest,
indices 0..5) with a judge answering Bad for C5, C4, C3 (indices below
3) and Good for C2, C1, C0, the loop finishes normally (binary-search
done) after launching C2, C4, C3 and reports badBuild = C3 and
goodBuild = C2. -/
theorem c2_six_build_run :
    startBisect 10 range6 (fun _ i => if i < 3 then .bad else .good) =
      some ⟨some (.pair (cBuild "C3") (cBuild "C2")), 3,
        [cBuild "C2", cBuild "C4", cBuild "C3"],
        [⟨3, 3⟩, ⟨2, 1⟩, ⟨1, 2⟩], some .finished⟩ := by
  rfl

/-- C1 (code bug): evaluation of the search on a length-2 range at the
claim's boundary `b = 1`.  With the claim's oracle (Bad at indices at or
past 1, Good below) the code launches only index 1 and reports "All
builds are bad!"; with the mirrored monotone oracle (Bad below index 1,
Good at or past it) it again launches only index 1 and reports "All
builds are good!".  In neither orientation does a bad/good pair around
the boundary appear, and index 0 is never probed at all: the reported
pair of the claim does not exist. -/
theorem c1_boundary_search_misreports_two_builds :
    startBisect 10 rangeTwo (fun _ i => if 1 ≤ i then .bad else .good) =
      some ⟨some (.allBad (cBuild "B1")), 1, [cBuild "B1"], [⟨1, 1⟩], some .finished⟩ ∧
    startBisect 10 rangeTwo (fun _ i => if i < 1 then .bad else .good) =
      some ⟨some (.allGood (cBuild "B1")), 1, [cBuild "B1"], [⟨1, 1⟩], some .finished⟩ := by
  exact ⟨rfl, rfl⟩

/-- C3 (counterexample): at the state with chunk 2 and index 3, a Bad
verdict moves the index to 4 — away from index 0, not toward it — and a
Good verdict moves it to 2 — toward index 0, not toward the end.  The
direction labels of the claim are therefore false as stated. -/
theorem c3_counterexample_step_directions :
    (nextState ⟨2, 3⟩ .bad).2.currentIndex = 4 ∧
    ¬ (nextState ⟨2, 3⟩ .bad).2.currentIndex < (3 : Int) ∧
    (nextState ⟨2, 3⟩ .good).2.currentIndex = 2 ∧
    ¬ (3 : Int) < (nextState ⟨2, 3⟩ .good).2.currentIndex := by
  decide

/-- C3 (amended): in every non-terminal step (chunk at least 2), a Bad
verdict records the current build as the worst-known-bad candidate and
moves the index toward the end (older) by halving the chunk with
rounding and adding it, while a Good verdict records the current build
as the best-known-good candidate and moves the index toward index 0
(newer) by halving the chunk and subtracting it. -/
theorem c3_amended_step_directions (s : BisectState) (b : Build)
    (bad good : Option Build) (h : 2 ≤ s.currentChunk) :
    (recordVerdict b .bad bad good).1 = some b ∧
    (recordVerdict b .good bad good).2 = some b ∧
    nextState s .bad =
      (false, ⟨roundHalf s.currentChunk, s.currentIndex + roundHalf s.currentChunk⟩) ∧
    nextState s .good =
      (false, ⟨roundHalf s.currentChunk, s.currentIndex - roundHalf s.currentChunk⟩) ∧
    s.currentIndex < s.currentIndex + (roundHalf s.currentChunk : Int) ∧
    s.currentIndex - (roundHalf s.currentChunk : Int) < s.currentIndex := by
  have hne : ¬ s.currentChunk = 1 := by omega
  have hpos : 1 ≤ roundHalf s.currentChunk := roundHalf_pos (by omega)
  have hposInt : (1 : Int) ≤ (roundHalf s.currentChunk : Int) := by exact_mod_cast hpos
  refine ⟨rfl, rfl, ?_, ?_, by omega, by omega⟩
  · simp [nextState, hne]
  · simp [nextState, hne]

/-- Witness for the amended C3 theorem at the concrete state with
chunk 2 and index 3. -/
theorem c3_amended_step_directions_witness :
    2 ≤ (2 : Nat) ∧ nextState ⟨2, 3⟩ .bad = (false, ⟨1, 4⟩) :=
  ⟨by decide, by
    have h := (c3_amended_step_directions ⟨2, 3⟩ (cBuild "X") none none (by decide)).2.2.1
    exact h⟩

/-- C5 (counterexample): on a single-build range the short circuit
always prints the "No builds bisected" (insufficient builds) report, no
matter which bound was supplied — never the all-good or all-bad report
the claim attributes to the supplied bound. -/
theorem c5_counterexample_report_constant :
    startBisect 10 soloRange (fun _ _ => .bad) =
      some ⟨some .insufficient, 0, [], [], none⟩ ∧
    Report.insufficient ≠ Report.allBad (cBuild "S0") ∧
    Report.insufficient ≠ Report.allGood (cBuild "S0") := by
  exact ⟨rfl, by decide, by decide⟩

/-- C5 (amended): for every range of length 0 or 1, `Bisecter.start`
short-circuits without running any search step: zero launches, an empty
loop trace, and the final report is always the "No builds bisected"
(insufficient builds) report, regardless of any supplied bound. -/
theorem c5_amended_short_circuit (fuel : Nat) (range : List Build)
    (judge : Nat → Int → Verdict) (h : range.length < 2) :
    startBisect fuel range judge = some ⟨some .insufficient, 0, [], [], none⟩ := by
  unfold startBisect
  rw [if_pos h]
  rfl

/-- Witness for the amended C5 theorem on the empty range. -/
theorem c5_amended_short_circuit_witness :
    ([] : List Build).length < 2 ∧
    startBisect 3 [] (fun _ _ => .good) = some ⟨some .insufficient, 0, [], [], none⟩ :=
  ⟨by decide, c5_amended_short_circuit 3 [] (fun _ _ => .good) (by decide)⟩

/-- C8 (counterexample): when the performance results file is absent,
`readFileSync` throws, so processing is a hard error for that launch —
not the claimed soft failure with elapsed left undefined. -/
theorem c8_counterexample_missing_file :
    processPerfFile none = .error () ∧
    (Except.error () : Except Unit (Option Nat)) ≠ .ok none := by
  exact ⟨rfl, by simp⟩

/-- C8 (amended): in desktop performance mode, malformed content of the
performance results file (no leading decimal digits) is a soft failure —
elapsed stays undefined and no error is raised — while an absent file
makes the read throw, a hard error for that launch. -/
theorem c8_amended_perf_parsing (s : String) (h : execLeadingDigits s = none) :
    processPerfFile (some s) = .ok none ∧ processPerfFile none = .error () := by
  refine ⟨?_, rfl⟩
  simp only [processPerfFile, h]

/-- Witness for the amended C8 theorem on a file whose first character
is not a digit. -/
theorem c8_amended_perf_parsing_witness :
    execLeadingDigits "oops" = none ∧
    (processPerfFile (some "oops") = .ok none ∧ processPerfFile none = .error ()) :=
  ⟨by decide, c8_amended_perf_parsing "oops" (by decide)⟩

/-- Characterisation of the finished branch of `nextState`: it fires
exactly when the chunk is already 1, and leaves the state untouched. -/
theorem nextState_eq_true {s : BisectState} {v : Verdict} {x : BisectState}
    (h : nextState s v = (true, x)) : s.currentChunk = 1 ∧ x = s := by
  unfold nextState at h
  split at h
  · exact ⟨by assumption, by injection h with _ h2; exact h2.symm⟩
  · injection h with h1
    exact absurd h1 (by simp)

/-- Characterisation of the non-finished branch of `nextState`: the
chunk was not 1 and the new chunk is the rounded half. -/
theorem nextState_eq_false {s : BisectState} {v : Verdict} {s' : BisectState}
    (h : nextState s v = (false, s')) :
    s.currentChunk ≠ 1 ∧ s'.currentChunk = roundHalf s.currentChunk := by
  unfold nextState at h
  split at h
  · injection h with h1
    exact absurd h1 (by simp)
  · injection h with _ h2
    refine ⟨by assumption, ?_⟩
    rw [← h2]

/-- Every successful run of the loop starts its trace with the entry
state. -/
theorem bisectLoop_trace_cons (range : List Build) (judge : Nat → Int → Verdict) :
    ∀ (fuel step : Nat) (s : BisectState) (bad good : Option Build)
      (launched : List Build) (launches : Nat) (r : LoopResult),
      bisectLoop range judge fuel step s bad good launched launches = some r →
      ∃ rest, r.trace = s :: rest := by
  intro fuel step s bad good launched launches r h
  cases fuel with
  | zero => simp [bisectLoop] at h
  | succ n =>
    unfold bisectLoop at h
    split at h
    · cases h
      exact ⟨[], rfl⟩
    · split at h
      · cases h
        exact ⟨[], rfl⟩
      all_goals
        split at h
        · cases h
          exact ⟨[], rfl⟩
        · dsimp only at h
          split at h
          · cases h
          · cases h
            exact ⟨_, rfl⟩

/-- C4 (amended): along every run of the search loop from a state with
positive chunk, under an arbitrary sequence of Good/Bad/Quit verdicts,
the chunk values of the visited states are strictly decreasing and never
drop below 1 (rounding in the halving guarantees both), and the loop can
exit through the binary-search-done branch only in a state whose chunk
is exactly 1 — it never skips past 1.  The loop may however also exit
earlier, with the chunk still above 1, when the step pushes the index
outside the range (see the counterexample). -/
theorem c4_amended_chunk_invariant (range : List Build) (judge : Nat → Int → Verdict) :
    ∀ (fuel step : Nat) (s : BisectState) (bad good : Option Build)
      (launched : List Build) (launches : Nat) (r : LoopResult),
      1 ≤ s.currentChunk →
      bisectLoop range judge fuel step s bad good launched launches = some r →
      (∀ t ∈ r.trace, 1 ≤ t.currentChunk) ∧
      List.Chain' (fun a b => b.currentChunk < a.currentChunk) r.trace ∧
      (r.exit = .finished → r.finalState.currentChunk = 1) := by
  intro fuel
  induction fuel with
  | zero =>
    intro step s bad good launched launches r hs h
    simp [bisectLoop] at h
  | succ n ih =>
    intro step s bad good launched launches r hs h
    unfold bisectLoop at h
    split at h
    · cases h
      refine ⟨by simpa using hs, by simp, by simp⟩
    · split at h
      · cases h
        refine ⟨by simpa using hs, by simp, by simp⟩
      all_goals
        rename_i heqj
        split at h
        · rename_i x heqn
          cases h
          have hfin := nextState_eq_true heqn
          exact ⟨by simpa using hs, by simp, fun _ => hfin.1⟩
        · rename_i s' heqn
          dsimp only at h
          split at h
          · cases h
          · rename_i res heqr
            cases h
            have hne := nextState_eq_false heqn
            have hs2 : 2 ≤ s.currentChunk := by omega
            have hs' : 1 ≤ s'.currentChunk := by
              rw [hne.2]
              exact roundHalf_pos (by omega)
            have hlt : s'.currentChunk < s.currentChunk := by
              rw [hne.2]
              exact roundHalf_lt hs2
            have hrec := ih _ _ _ _ _ _ _ hs' heqr
            obtain ⟨rest, hrest⟩ := bisectLoop_trace_cons range judge _ _ _ _ _ _ _ _ heqr
            refine ⟨?_, ?_, hrec.2.2⟩
            · intro t ht
              rcases List.mem_cons.mp ht with h1 | h2
              · subst h1; exact hs
              · exact hrec.1 t h2
            · show List.Chain' _ (s :: res.trace)
              rw [hrest]
              refine List.chain'_cons.mpr ⟨hlt, ?_⟩
              rw [← hrest]
              exact hrec.2.1

/-- C4 (counterexample): on a five-build range with every verdict Bad,
the loop exits because the index leaves the range: the visited chunk
values are 3 then 2, the loop terminates (out-of-range exit) and the
chunk never reaches 1 before that termination, contradicting the claim
that the chunk reaches exactly 1 before the loop can terminate. -/
theorem c4_counterexample_early_exit :
    startBisect 10 rangeFive (fun _ _ => .bad) =
      some ⟨some (.allBad (cBuild "b3")), 1, [cBuild "b3"],
        [⟨3, 3⟩, ⟨2, 5⟩], some .outOfRange⟩ ∧
    ([⟨3, 3⟩, ⟨2, 5⟩] : List BisectState).map BisectState.currentChunk = [3, 2] ∧
    (1 : Nat) ∉ [3, 2] := by
  exact ⟨rfl, rfl, by decide⟩

/-- Witness for the amended C4 theorem: a one-step run on the two-build
range with an all-Bad judge. -/
theorem c4_amended_chunk_invariant_witness :
    1 ≤ (1 : Nat) ∧
    (∀ t ∈ (LoopResult.trace ⟨some (cBuild "B1"), none, .finished, ⟨1, 1⟩,
        [⟨1, 1⟩], [cBuild "B1"], 1⟩), 1 ≤ t.currentChunk) ∧
    List.Chain' (fun a b => b.currentChunk < a.currentChunk)
      (LoopResult.trace ⟨some (cBuild "B1"), none, .finished, ⟨1, 1⟩,
        [⟨1, 1⟩], [cBuild "B1"], 1⟩) ∧
    (ExitKind.finished = ExitKind.finished →
      (BisectState.mk 1 1).currentChunk = 1) :=
  ⟨by decide,
    c4_amended_chunk_invariant rangeTwo (fun _ _ => .bad) 5 0 ⟨1, 1⟩ none none [] 0
      ⟨some (cBuild "B1"), none, .finished, ⟨1, 1⟩, [⟨1, 1⟩], [cBuild "B1"], 1⟩
      (by decide) rfl⟩

/-- C6 (counterexample): supplying the same commit as both the good and
the bad bound is rejected, but the rejection is produced by
`Builds.fetchBuilds` after it has fetched the catalog: the session's
effect list already contains the catalog fetch — a network effect — when
the error is thrown, so the rejection does not happen before any network
activity. -/
theorem c6_counterexample_catalog_fetch_precedes :
    runSession 3 .webLocal ["a", "b"] (some "a") (some "a") (fun _ _ => .good) =
      some ⟨[.fetchCatalog],
        .error "Provided bad commit a cannot be older or same as good commit a."⟩ ∧
    SessionEffect.fetchCatalog.isNetwork = true := by
  exact ⟨rfl, rfl⟩

/-- C6 (amended): whenever a supplied good or bad commit is missing from
the catalog, or the resolved indices satisfy badIndex at or past
goodIndex (which covers equal good/bad commits), the session fails with
the error produced by the bound validation, and the only effect that has
happened is the catalog fetch itself — no build is downloaded and no
process is launched.  The rejection necessarily comes after the catalog
fetch, since the validation needs the catalog. -/
theorem c6_amended_invalid_bounds (fuel : Nat) (rt : Runtime) (catalog : List String)
    (goodCommit badCommit : Option String) (judge : Nat → Int → Verdict)
    (h : (∃ g, goodCommit = some g ∧ indexOfCommit g (catalogBuilds rt catalog) = none) ∨
         (∃ b, badCommit = some b ∧ indexOfCommit b (catalogBuilds rt catalog) = none) ∨
         (∃ gi bi, lookupGoodIndex (catalogBuilds rt catalog) goodCommit = .ok gi ∧
           lookupBadIndex (catalogBuilds rt catalog) badCommit = .ok bi ∧ gi ≤ bi)) :
    ∃ m, runSession fuel rt catalog goodCommit badCommit judge =
      some ⟨[.fetchCatalog], .error m⟩ := by
  have herr : ∃ m, fetchBuildsPure (catalogBuilds rt catalog) goodCommit badCommit =
      .error m := by
    rcases h with ⟨g, rfl, hidx⟩ | ⟨b, rfl, hidx⟩ | ⟨gi, bi, hgi, hbi, hle⟩
    · have hg : lookupGoodIndex (catalogBuilds rt catalog) (some g) =
          .error ("Provided good commit " ++ g ++ " is not a released insiders build.") := by
        unfold lookupGoodIndex
        dsimp only
        rw [hidx]
      exact ⟨_, by unfold fetchBuildsPure; rw [hg]⟩
    · cases hgx : lookupGoodIndex (catalogBuilds rt catalog) goodCommit with
      | error m => exact ⟨m, by unfold fetchBuildsPure; rw [hgx]⟩
      | ok gi =>
        have hb : lookupBadIndex (catalogBuilds rt catalog) (some b) =
            .error ("Provided bad commit " ++ b ++ " is not a released insiders build.") := by
          unfold lookupBadIndex
          dsimp only
          rw [hidx]
        exact ⟨_, by unfold fetchBuildsPure; rw [hgx, hb]⟩
    · refine ⟨"Provided bad commit " ++ optStr badCommit ++
        " cannot be older or same as good commit " ++ optStr goodCommit ++ ".", ?_⟩
      unfold fetchBuildsPure
      rw [hgi, hbi]
      dsimp only
      rw [if_pos hle]
  obtain ⟨m, hm⟩ := herr
  exact ⟨m, by unfold runSession; rw [hm]⟩

/-- Witness for the amended C6 theorem: the catalog `[a, b]` with the
same commit `a` supplied as both bounds. -/
theorem c6_amended_invalid_bounds_witness :
    (lookupGoodIndex (catalogBuilds .webLocal ["a", "b"]) (some "a") = .ok 0 ∧
     lookupBadIndex (catalogBuilds .webLocal ["a", "b"]) (some "a") = .ok 0 ∧
     (0 : Int) ≤ 0) ∧
    ∃ m, runSession 3 .webLocal ["a", "b"] (some "a") (some "a") (fun _ _ => .good) =
      some ⟨[.fetchCatalog], .error m⟩ :=
  ⟨⟨rfl, rfl, le_refl 0⟩,
    c6_amended_invalid_bounds 3 .webLocal ["a", "b"] (some "a") (some "a")
      (fun _ _ => .good) (Or.inr (Or.inr ⟨0, 0, rfl, rfl, le_refl 0⟩))⟩

/-- C7: under the operating-system semantics of termination — the
tree-kill call leaves the process tree dead, a dead process stays dead,
and the terminate signal of `cp.kill` takes an alive process down — each
`stop` implementation of the launcher resolves (never throws), a second
call is a no-op that resolves again without changing anything, and a
stop on an already-exited process resolves successfully even when the
underlying termination call itself reports an error (the probe finds the
process gone). -/
theorem c7_stop_idempotent (treeKill : ProcState → Bool × ProcState)
    (killSignal : ProcState → ProcState)
    (hDead : (treeKill .exited).2 = .exited)
    (hKill : (treeKill .alive).2 = .exited)
    (hSigDead : killSignal .exited = .exited)
    (hSigAlive : killSignal .alive = .exited)
    (st : ProcState) :
    (stopWebServer treeKill st).1 = .ok () ∧
    stopWebServer treeKill (stopWebServer treeKill st).2 =
      (.ok (), (stopWebServer treeKill st).2) ∧
    (st = .exited → stopWebServer treeKill st = (.ok (), .exited)) ∧
    (stopElectron killSignal st).1 = .ok () ∧
    stopElectron killSignal (stopElectron killSignal st).2 =
      (.ok (), (stopElectron killSignal st).2) ∧
    stopNoop st = (.ok (), st) := by
  have hstop : ∀ u : ProcState, (treeKill u).2 = .exited →
      stopWebServer treeKill u = (.ok (), .exited) := by
    intro u hu
    unfold stopWebServer
    by_cases h1 : (treeKill u).1 <;> simp [h1, hu]
  have htk : (treeKill st).2 = .exited := by
    cases st
    · exact hKill
    · exact hDead
  have hsig : killSignal st = .exited := by
    cases st
    · exact hSigAlive
    · exact hSigDead
  have hfirst := hstop st htk
  refine ⟨by rw [hfirst], ?_, ?_, by simp [stopElectron], ?_, rfl⟩
  · rw [hfirst]
    exact hstop .exited hDead
  · intro he
    subst he
    exact hfirst
  · simp [stopElectron, hsig, hSigDead]

/-- Deterministic tree-kill model for the C7 witness: the call reports
an error when the process is already gone (nothing to kill), and the
tree ends up dead either way. -/
def tkModel : ProcState → Bool × ProcState :=
  fun s => (decide (s = .exited), .exited)

/-- Deterministic terminate-signal model for the C7 witness. -/
def sigModel : ProcState → ProcState :=
  fun _ => .exited

/-- Witness for the C7 theorem on an already-exited process under the
deterministic kill models. -/
theorem c7_stop_idempotent_witness :
    ((tkModel .exited).2 = .exited ∧ (tkModel .alive).2 = .exited ∧
      sigModel .exited = .exited ∧ sigModel .alive = .exited) ∧
    ((stopWebServer tkModel .exited).1 = .ok () ∧
     stopWebServer tkModel (stopWebServer tkModel .exited).2 =
       (.ok (), (stopWebServer tkModel .exited).2) ∧
     (ProcState.exited = ProcState.exited →
       stopWebServer tkModel .exited = (.ok (), .exited)) ∧
     (stopElectron sigModel .exited).1 = .ok () ∧
     stopElectron sigModel (stopElectron sigModel .exited).2 =
       (.ok (), (stopElectron sigModel .exited).2) ∧
     stopNoop .exited = (.ok (), .exited)) :=
  ⟨⟨rfl, rfl, rfl, rfl⟩, c7_stop_idempotent tkModel sigModel rfl rfl rfl rfl .exited⟩

/-- Cached case of `Builds.installBuild`: when the archive path already
exists on disk, the call returns immediately with no effects. -/
theorem installBuild_cached (rt : InstallRuntime) (p : Platform) (meta : BuildMeta)
    (fs : List String) (commit : String)
    (h : joinPath (getBuildPath p commit) (getBuildArchiveName rt p meta) ∈ fs) :
    installBuild rt p meta fs commit = ⟨fs, []⟩ := by
  unfold installBuild
  dsimp only
  rw [if_pos h]

/-- C9: `installBuild` is idempotent.  When the marker (archive) path
for the build already exists on disk the call returns immediately with
no download and no extraction; and whatever the first call did, a second
call for the same build performs no download/extract work and leaves the
file system unchanged. -/
theorem c9_install_idempotent (rt : InstallRuntime) (p : Platform) (meta : BuildMeta)
    (fs : List String) (commit : String) :
    (joinPath (getBuildPath p commit) (getBuildArchiveName rt p meta) ∈ fs →
      installBuild rt p meta fs commit = ⟨fs, []⟩) ∧
    installBuild rt p meta (installBuild rt p meta fs commit).fs commit =
      ⟨(installBuild rt p meta fs commit).fs, []⟩ := by
  refine ⟨installBuild_cached rt p meta fs commit, ?_⟩
  by_cases h : joinPath (getBuildPath p commit) (getBuildArchiveName rt p meta) ∈ fs
  · rw [installBuild_cached rt p meta fs commit h]
    exact installBuild_cached rt p meta fs commit h
  · have h2 : (installBuild rt p meta fs commit).fs =
        joinPath (getBuildPath p commit) (getBuildArchiveName rt p meta) :: fs := by
      unfold installBuild
      dsimp only
      rw [if_neg h]
    rw [h2]
    exact installBuild_cached rt p meta _ commit (List.mem_cons_self _ _)

/-- Witness for the C9 theorem: a macOS web build whose archive path is
already cached. -/
theorem c9_install_idempotent_witness :
    ".builds/deadbe/vscode-server-darwin-web.zip" ∈
      [".builds/deadbe/vscode-server-darwin-web.zip"] ∧
    installBuild .web .macOSX64 ⟨"u", "v"⟩
      [".builds/deadbe/vscode-server-darwin-web.zip"] "deadbe" =
      ⟨[".builds/deadbe/vscode-server-darwin-web.zip"], []⟩ :=
  ⟨List.mem_cons_self _ _,
    (c9_install_idempotent .web .macOSX64 ⟨"u", "v"⟩
      [".builds/deadbe/vscode-server-darwin-web.zip"] "deadbe").1 (by decide)⟩

/-- A successful commit lookup always yields an index inside the
catalog. -/
theorem indexOfCommit_lt {c : String} {l : List Build} {i : Nat}
    (h : indexOfCommit c l = some i) : i < l.length := by
  induction l generalizing i with
  | nil => simp [indexOfCommit] at h
  | cons b bs ih =>
    unfold indexOfCommit at h
    by_cases hb : b.commit = c
    · rw [if_pos hb] at h
      injection h with h
      simp [← h]
    · rw [if_neg hb] at h
      rcases hx : indexOfCommit c bs with _ | j
      · rw [hx] at h
        simp at h
      · rw [hx] at h
        simp only [Option.map_some'] at h
        injection h with h
        have := ih hx
        simp only [List.length_cons]
        omega

/-- The resolved good index never lies past the oldest catalog entry. -/
theorem lookupGoodIndex_le {A : List Build} {good : Option String} {gi : Int}
    (h : lookupGoodIndex A good = .ok gi) : gi ≤ (A.length : Int) - 1 := by
  unfold lookupGoodIndex at h
  cases good with
  | none =>
    injection h with h
    omega
  | some g =>
    dsimp only at h
    rcases hx : indexOfCommit g A with _ | i
    · rw [hx] at h
      cases h
    · rw [hx] at h
      injection h with h
      have := indexOfCommit_lt hx
      omega

/-- The resolved bad index is never negative. -/
theorem lookupBadIndex_nonneg {A : List Build} {bad : Option String} {bi : Int}
    (h : lookupBadIndex A bad = .ok bi) : 0 ≤ bi := by
  unfold lookupBadIndex at h
  cases bad with
  | none =>
    injection h with h
    omega
  | some b =>
    dsimp only at h
    rcases hx : indexOfCommit b A with _ | i
    · rw [hx] at h
      cases h
    · rw [hx] at h
      injection h with h
      omega

/-- C10: whenever `Builds.fetchBuilds` returns without throwing, the
returned range has length at least 2 — the validated bad index is
strictly below the good index and the inclusive slice contains both
bounds — so the search loop is never entered with fewer than two
candidates and the length-below-2 short circuit is unreachable from
this entry point. -/
theorem c10_range_length_ge_two (allBuilds : List Build)
    (goodCommit badCommit : Option String) (r : List Build)
    (h : fetchBuildsPure allBuilds goodCommit badCommit = .ok r) :
    2 ≤ r.length := by
  unfold fetchBuildsPure at h
  cases hg : lookupGoodIndex allBuilds goodCommit with
  | error m => rw [hg] at h; cases h
  | ok gi =>
    rw [hg] at h
    dsimp only at h
    cases hb : lookupBadIndex allBuilds badCommit with
    | error m => rw [hb] at h; cases h
    | ok bi =>
      rw [hb] at h
      dsimp only at h
      split at h
      · cases h
      · rename_i hgt
        injection h with h
        subst h
        have h1 := lookupGoodIndex_le hg
        have h2 := lookupBadIndex_nonneg hb
        unfold jsSlice
        rw [List.length_take, List.length_drop]
        omega

/-- Witness for the C10 theorem: the two-commit catalog with the good
bound on the older commit and the bad bound on the newer one. -/
theorem c10_range_length_ge_two_witness :
    fetchBuildsPure (catalogBuilds .webLocal ["a", "b"]) (some "b") (some "a") =
      .ok (catalogBuilds .webLocal ["a", "b"]) ∧
    2 ≤ (catalogBuilds .webLocal ["a", "b"]).length :=
  ⟨rfl,
    c10_range_length_ge_two (catalogBuilds .webLocal ["a", "b"]) (some "b") (some "a")
      (catalogBuilds .webLocal ["a", "b"]) rfl⟩

end VSCodeBisect
